import Mathlib

/-!
Verification of the water-quality dashboard script (src/testest.py).

The script is a linear pandas/streamlit pipeline:
load table -> check for the "Data" column -> parse dates (coerce to
missing on failure) -> filter by date interval and station set ->
group-by-year means (bar chart) -> Spearman correlation of two chosen
numeric columns.  We embed each computational stage as a pure Lean
function over explicit row lists, with machine dates modelled as
integer timestamps, numeric cells as rationals, and missing values
(NaN / NaT) as Option.
-/

namespace DashAgua

/-- Row of the observation table after the date-parse step of the script
(line 29, to_datetime with coerce): data is the parsed timestamp
(none models NaT), estacao the station id from the Estação column,
ano the value of the Ano cell when present, and vals the numeric cells
indexed by column name (none models NaN). -/
structure Row where
  data : Option Int
  estacao : String
  ano : Option Int
  vals : String → Option ℚ

/-- Date predicate of line 43: (df[Data] >= s) & (df[Data] <= e); a NaT
date compares false in pandas, so rows with unparsed dates are dropped. -/
def dateKeep (s e : Int) (r : Row) : Bool :=
  match r.data with
  | some d => decide (s ≤ d) && decide (d ≤ e)
  | none => false

/-- Date filter of line 43. -/
def dateFilter (rows : List Row) (s e : Int) : List Row :=
  rows.filter (dateKeep s e)

/-- Station filter of line 54: isin over the selected station list. -/
def stationFilter (rows : List Row) (sel : List String) : List Row :=
  rows.filter fun r => decide (r.estacao ∈ sel)

/-- Filter Stage of the pipeline: date filter (line 43) followed by the
station filter (line 54). -/
def filterStage (rows : List Row) (s e : Int) (sel : List String) : List Row :=
  stationFilter (dateFilter rows s e) sel

/-- First-occurrence deduplication, the order semantics of pandas
Series.unique; seen accumulates the values already emitted. -/
def uniqueAux {α : Type} [DecidableEq α] : List α → List α → List α
  | [], _ => []
  | a :: l, seen => if a ∈ seen then uniqueAux l seen else a :: uniqueAux l (a :: seen)

/-- Distinct values in order of first appearance (pandas unique). -/
def uniqueList {α : Type} [DecidableEq α] (l : List α) : List α := uniqueAux l []

/-- Station options offered by the multiselect of lines 46-51: the
distinct Estação values of the date-filtered table. -/
def estacoes (rows : List Row) (s e : Int) : List String :=
  uniqueList ((dateFilter rows s e).map Row.estacao)

lemma filterStage_eq_filter (rows : List Row) (s e : Int) (sel : List String) :
    filterStage rows s e sel
      = rows.filter fun r => dateKeep s e r && decide (r.estacao ∈ sel) := by
  simp only [filterStage, stationFilter, dateFilter, List.filter_filter]
  congr 1
  funext r
  exact Bool.and_comm _ _

lemma dateKeep_iff (s e : Int) (r : Row) :
    dateKeep s e r = true ↔ ∃ d, r.data = some d ∧ s ≤ d ∧ d ≤ e := by
  unfold dateKeep
  cases h : r.data with
  | none => simp
  | some d => simp

lemma mem_filterStage (rows : List Row) (s e : Int) (sel : List String) (r : Row) :
    r ∈ filterStage rows s e sel
      ↔ r ∈ rows ∧ (∃ d, r.data = some d ∧ s ≤ d ∧ d ≤ e) ∧ r.estacao ∈ sel := by
  rw [filterStage_eq_filter]
  simp only [List.mem_filter, Bool.and_eq_true, decide_eq_true_eq, dateKeep_iff]

lemma mem_uniqueAux {α : Type} [DecidableEq α] (l : List α) : ∀ (seen : List α) (v : α),
    v ∈ uniqueAux l seen ↔ v ∈ l ∧ v ∉ seen := by
  induction l with
  | nil => intro seen v; simp [uniqueAux]
  | cons a t ih =>
    intro seen v
    simp only [uniqueAux]
    by_cases ha : a ∈ seen
    · rw [if_pos ha, ih]
      simp only [List.mem_cons]
      constructor
      · rintro ⟨hv, hs⟩; exact ⟨Or.inr hv, hs⟩
      · rintro ⟨rfl | hv, hs⟩
        · exact absurd ha hs
        · exact ⟨hv, hs⟩
    · rw [if_neg ha]
      simp only [List.mem_cons, ih, not_or]
      constructor
      · rintro (rfl | ⟨hv, _, hs⟩)
        · exact ⟨Or.inl rfl, ha⟩
        · exact ⟨Or.inr hv, hs⟩
      · rintro ⟨rfl | hv, hs⟩
        · exact Or.inl rfl
        · by_cases hva : v = a
          · exact Or.inl hva
          · exact Or.inr ⟨hv, hva, hs⟩

lemma mem_uniqueList {α : Type} [DecidableEq α] (l : List α) (v : α) :
    v ∈ uniqueList l ↔ v ∈ l := by
  rw [uniqueList, mem_uniqueAux]; simp

lemma nodup_uniqueAux {α : Type} [DecidableEq α] (l : List α) :
    ∀ seen : List α, (uniqueAux l seen).Nodup := by
  induction l with
  | nil => intro seen; simp [uniqueAux]
  | cons a t ih =>
    intro seen
    by_cases ha : a ∈ seen
    · simpa [uniqueAux, if_pos ha] using ih seen
    · rw [uniqueAux, if_neg ha]
      refine List.nodup_cons.mpr ⟨?_, ih _⟩
      intro hc
      exact ((mem_uniqueAux t _ a).mp hc).2 (List.mem_cons_self a seen)

lemma nodup_uniqueList {α : Type} [DecidableEq α] (l : List α) :
    (uniqueList l).Nodup := nodup_uniqueAux l []

/-- Claim C1: for every table, every date interval with s ≤ e and every
station set, the Filter Stage output is exactly the rows whose parsed
date lies in the closed interval and whose station is selected
(unparseable dates are silently excluded); the output is a subsequence
of the input in original order and its rows are unchanged rows of the
input. -/
theorem C1_filter_stage_correct (rows : List Row) (s e : Int) (sel : List String)
    (hse : s ≤ e) :
    filterStage rows s e sel
        = rows.filter (fun r => dateKeep s e r && decide (r.estacao ∈ sel))
      ∧ (filterStage rows s e sel).Sublist rows
      ∧ ∀ r, r ∈ filterStage rows s e sel
          ↔ r ∈ rows ∧ (∃ d, r.data = some d ∧ s ≤ d ∧ d ≤ e) ∧ r.estacao ∈ sel := by
  refine ⟨filterStage_eq_filter rows s e sel, ?_, mem_filterStage rows s e sel⟩
  rw [filterStage_eq_filter]
  exact List.filter_sublist rows

/-- Witness for C1 at a concrete table and interval. -/
theorem C1_filter_stage_correct_witness :
    (0 : Int) ≤ 1
      ∧ (filterStage [] 0 1 ["A"]
            = List.filter (fun r => dateKeep 0 1 r && decide (r.estacao ∈ ["A"])) []
        ∧ (filterStage [] 0 1 ["A"]).Sublist []
        ∧ ∀ r, r ∈ filterStage [] 0 1 ["A"]
            ↔ r ∈ ([] : List Row) ∧ (∃ d, r.data = some d ∧ 0 ≤ d ∧ d ≤ 1)
                ∧ r.estacao ∈ ["A"]) :=
  ⟨by decide, C1_filter_stage_correct [] 0 1 ["A"] (by decide)⟩

/-- Claim C7: the Filter Stage is idempotent for a fixed interval and
station set. -/
theorem C7_filter_idempotent (rows : List Row) (s e : Int) (sel : List String) :
    filterStage (filterStage rows s e sel) s e sel = filterStage rows s e sel := by
  rw [filterStage_eq_filter, filterStage_eq_filter, List.filter_filter]
  congr 1
  funext r
  cases dateKeep s e r <;> cases decide (r.estacao ∈ sel) <;> rfl

/-- Concrete station-A row with date 0, used in counterexamples. -/
def rowA : Row := ⟨some 0, "A", none, fun _ => none⟩

/-- Concrete station-B row with date 10, used in counterexamples. -/
def rowB : Row := ⟨some 10, "B", none, fun _ => none⟩

/-- Counterexample to claim C8: the multiselect options are computed
from the date-filtered table (line 46 of the script), so narrowing the
interval to [0,0] hides station B even though it is present in the
loaded table. -/
theorem C8_station_options_counterexample :
    estacoes [rowA, rowB] 0 0 = ["A"]
      ∧ uniqueList ([rowA, rowB].map Row.estacao) = ["A", "B"]
      ∧ estacoes [rowA, rowB] 0 0 ≠ uniqueList ([rowA, rowB].map Row.estacao) := by
  refine ⟨?_, ?_, ?_⟩ <;> decide

/-- Claim C8 amended: the station set offered for selection equals the
distinct Estação values of the date-filtered table — it is exactly the
stations having some row whose parsed date lies in the interval, hence
it depends on the chosen interval, and it is always a subset of the
stations of the loaded table. -/
theorem C8_station_options_amended (rows : List Row) (s e : Int) :
    (∀ v, v ∈ estacoes rows s e
        ↔ ∃ r ∈ rows, (∃ d, r.data = some d ∧ s ≤ d ∧ d ≤ e) ∧ r.estacao = v)
      ∧ estacoes rows s e ⊆ rows.map Row.estacao := by
  have hmem : ∀ v, v ∈ estacoes rows s e
      ↔ ∃ r ∈ rows, (∃ d, r.data = some d ∧ s ≤ d ∧ d ≤ e) ∧ r.estacao = v := by
    intro v
    rw [estacoes, mem_uniqueList, List.mem_map]
    constructor
    · rintro ⟨r, hr, rfl⟩
      rw [dateFilter, List.mem_filter, dateKeep_iff] at hr
      exact ⟨r, hr.1, hr.2, rfl⟩
    · rintro ⟨r, hr, hd, rfl⟩
      refine ⟨r, ?_, rfl⟩
      rw [dateFilter, List.mem_filter, dateKeep_iff]
      exact ⟨hr, hd⟩
  refine ⟨hmem, fun v hv => ?_⟩
  obtain ⟨r, hr, _, rfl⟩ := (hmem v).mp hv
  exact List.mem_map_of_mem Row.estacao hr

/-- Witness for C8's amended theorem at a concrete table. -/
theorem C8_station_options_amended_witness :
    (∀ v, v ∈ estacoes [rowA, rowB] 0 0
        ↔ ∃ r ∈ [rowA, rowB], (∃ d, r.data = some d ∧ 0 ≤ d ∧ d ≤ 0) ∧ r.estacao = v)
      ∧ estacoes [rowA, rowB] 0 0 ⊆ [rowA, rowB].map Row.estacao :=
  C8_station_options_amended [rowA, rowB] 0 0

/-- Parameter values of the rows of a given year; a row of the grouped
table is (year, values of that year). -/
def groupVals (rows : List (Int × ℚ)) (y : Int) : List ℚ :=
  (rows.filter fun p => decide (p.1 = y)).map Prod.snd

/-- Aggregator of line 104: groupby over the year column followed by
mean of the chosen parameter; pandas emits one row per distinct key,
sorted ascending.  A table row is modelled as its (Ano, parameter)
pair. -/
def df_barras (rows : List (Int × ℚ)) : List (Int × ℚ) :=
  (List.insertionSort (· ≤ ·) (uniqueList (rows.map Prod.fst))).map
    fun y => (y, (groupVals rows y).sum / ((groupVals rows y).length : ℚ))

lemma df_barras_fst (rows : List (Int × ℚ)) :
    (df_barras rows).map Prod.fst
      = List.insertionSort (· ≤ ·) (uniqueList (rows.map Prod.fst)) := by
  simp [df_barras, List.map_map, Function.comp_def]

/-- Claim C2: the Aggregator emits exactly one row per distinct year
present (no zero-fill), ordered by year ascending, each carrying the
arithmetic mean of the parameter over the rows of that year; on years
2021, 2021, 2022 with values 4, 6, 10 it yields (2021, 5) and
(2022, 10). -/
theorem C2_aggregator_correct (rows : List (Int × ℚ)) :
    List.Sorted (· ≤ ·) ((df_barras rows).map Prod.fst)
      ∧ ((df_barras rows).map Prod.fst).Nodup
      ∧ (∀ y : Int, y ∈ (df_barras rows).map Prod.fst ↔ y ∈ rows.map Prod.fst)
      ∧ (∀ p, p ∈ df_barras rows →
          p.2 = ((rows.filter fun q => decide (q.1 = p.1)).map Prod.snd).sum
            / (((rows.filter fun q => decide (q.1 = p.1)).map Prod.snd).length : ℚ))
      ∧ df_barras [(2021, 4), (2021, 6), (2022, 10)] = [(2021, 5), (2022, 10)] := by
  refine ⟨?_, ?_, ?_, ?_, ?_⟩
  · rw [df_barras_fst]
    exact List.sorted_insertionSort _ _
  · rw [df_barras_fst]
    exact (List.perm_insertionSort _ _).nodup_iff.mpr (nodup_uniqueList _)
  · intro y
    rw [df_barras_fst, (List.perm_insertionSort _ _).mem_iff, mem_uniqueList]
  · intro p hp
    rw [df_barras, List.mem_map] at hp
    obtain ⟨y, _, rfl⟩ := hp
    rfl
  · norm_num [df_barras, groupVals, uniqueList, uniqueAux,
      List.insertionSort, List.orderedInsert]

/-- Witness for C2 at the concrete table of Scenario 3. -/
theorem C2_aggregator_correct_witness :
    ((2021, (5 : ℚ)) ∈ df_barras [(2021, 4), (2021, 6), (2022, 10)])
      ∧ (2021, (5 : ℚ)).2
          = (([(2021, (4 : ℚ)), (2021, 6), (2022, 10)].filter
              fun q => decide (q.1 = (2021, (5 : ℚ)).1)).map Prod.snd).sum
            / ((([(2021, (4 : ℚ)), (2021, 6), (2022, 10)].filter
              fun q => decide (q.1 = (2021, (5 : ℚ)).1)).map Prod.snd).length : ℚ) := by
  have hmem : (2021, (5 : ℚ)) ∈ df_barras [(2021, 4), (2021, 6), (2022, 10)] := by
    norm_num [df_barras, groupVals, uniqueList, uniqueAux,
      List.insertionSort, List.orderedInsert]
  exact ⟨hmem,
    (C2_aggregator_correct [(2021, 4), (2021, 6), (2022, 10)]).2.2.2.1
      (2021, 5) hmem⟩

/-- Outcome of the scatter/correlation part of the script (lines
117-151): the insufficient-numeric-columns warning of line 120, the
insufficient-data warning of line 131, the identical-axis warning of
line 151, or a computed coefficient carrying the paired rows the
Spearman statistic is evaluated on (line 147). -/
inductive CorrResult where
  | insufficientNumericColumns : CorrResult
  | insufficientData : CorrResult
  | identicalAxes : CorrResult
  | coefficient : List (ℚ × ℚ) → CorrResult
deriving DecidableEq

/-- Missing-value removal of line 128: dropna over the X and Y cells of
each row, keeping the rows where both are present. -/
def dropna (prs : List (Option ℚ × Option ℚ)) : List (ℚ × ℚ) :=
  prs.filterMap fun p =>
    match p with
    | (some a, some b) => some (a, b)
    | _ => none

/-- Correlation Stage of lines 128-151: dropna, then the
fewer-than-two-rows guard, then the identical-axis guard; only past
both guards is the Spearman coefficient computed. -/
def correlationStage (prs : List (Option ℚ × Option ℚ)) (xAxis yAxis : String) :
    CorrResult :=
  let dfCorr := dropna prs
  if dfCorr.length < 2 then CorrResult.insufficientData
  else if xAxis ≠ yAxis then CorrResult.coefficient dfCorr
  else CorrResult.identicalAxes

lemma dropna_length (prs : List (Option ℚ × Option ℚ)) :
    (dropna prs).length
      = (prs.filter fun p => p.1.isSome && p.2.isSome).length := by
  induction prs with
  | nil => rfl
  | cons hd tl ih =>
    obtain ⟨a | av, b | bv⟩ := hd <;>
      simp [dropna, List.filterMap_cons, List.filter_cons, Option.isSome] at ih ⊢ <;>
      omega

/-- Claim C4: the Correlation Stage first drops every row with a
missing X or Y value, and reports the insufficient-data warning (and
nothing else) exactly when fewer than two rows survive; a table with a
single fully-present row triggers that warning. -/
theorem C4_insufficient_rows (prs : List (Option ℚ × Option ℚ)) (xAxis yAxis : String) :
    (correlationStage prs xAxis yAxis = CorrResult.insufficientData
        ↔ (prs.filter fun p => p.1.isSome && p.2.isSome).length < 2)
      ∧ (∀ q, q ∈ dropna prs → (some q.1, some q.2) ∈ prs)
      ∧ correlationStage [(some 1, some 2)] "A" "B" = CorrResult.insufficientData := by
  refine ⟨?_, ?_, by decide⟩
  · rw [← dropna_length]
    by_cases h2 : (dropna prs).length < 2
    · simp [correlationStage, h2]
    · by_cases hxy : xAxis ≠ yAxis <;> simp [correlationStage, h2, hxy]
  · intro q hq
    rw [dropna, List.mem_filterMap] at hq
    obtain ⟨⟨oa, ob⟩, hmem, hsome⟩ := hq
    cases oa with
    | none => simp at hsome
    | some a =>
      cases ob with
      | none => simp at hsome
      | some b =>
        simp only [Option.some.injEq] at hsome
        obtain rfl : (a, b) = q := hsome
        exact hmem

/-- Witness for C4 at a concrete single-row table. -/
theorem C4_insufficient_rows_witness :
    ((3 : ℚ), (7 : ℚ)) ∈ dropna [((some (3 : ℚ)), some (7 : ℚ))]
      ∧ (some ((3 : ℚ), (7 : ℚ)).1, some ((3 : ℚ), (7 : ℚ)).2)
          ∈ [((some (3 : ℚ)), some (7 : ℚ))] :=
  ⟨by decide,
    (C4_insufficient_rows [((some (3 : ℚ)), some (7 : ℚ))] "A" "B").2.1
      ((3 : ℚ), (7 : ℚ)) (by decide)⟩

/-- Counterexample to claim C5: the script checks the row count before
the axis-identity check (line 130 versus line 146), so with X = Y and a
single paired row the insufficient-data warning is reported, not the
identical-axis warning. -/
theorem C5_identical_axes_counterexample :
    correlationStage [(some 1, some 1)] "A" "A" = CorrResult.insufficientData
      ∧ correlationStage [(some 1, some 1)] "A" "A" ≠ CorrResult.identicalAxes := by
  refine ⟨by decide, by decide⟩

/-- Claim C5 amended: with identical X and Y the Spearman coefficient
is never computed; the identical-axis warning is reported whenever at
least two paired rows survive the missing-value drop (with fewer rows
the insufficient-data warning takes precedence). -/
theorem C5_identical_axes_amended (prs : List (Option ℚ × Option ℚ)) (xAxis : String) :
    (∀ ps, correlationStage prs xAxis xAxis ≠ CorrResult.coefficient ps)
      ∧ (2 ≤ (dropna prs).length →
          correlationStage prs xAxis xAxis = CorrResult.identicalAxes) := by
  constructor
  · intro ps
    by_cases h2 : (dropna prs).length < 2 <;> simp [correlationStage, h2]
  · intro h2
    have h2' : ¬ (dropna prs).length < 2 := by omega
    simp [correlationStage, h2']

/-- Witness for C5's amended theorem at a concrete two-row table. -/
theorem C5_identical_axes_amended_witness :
    2 ≤ (dropna [(some (1 : ℚ), some (1 : ℚ)), (some 2, some 2)]).length
      ∧ correlationStage [(some (1 : ℚ), some (1 : ℚ)), (some 2, some 2)] "A" "A"
          = CorrResult.identicalAxes :=
  ⟨by decide,
    (C5_identical_axes_amended [(some (1 : ℚ), some (1 : ℚ)), (some 2, some 2)] "A").2
      (by decide)⟩

/-- Loaded table: the parsed column names, the names of the
numeric-typed columns (what select_dtypes of lines 94 and 117 sees),
and the rows. -/
structure Table where
  cols : List String
  numericCols : List String
  rows : List Row

/-- Outcome of one full evaluation of the script body: the distinct
missing-Data-column message of line 26, the generic catch-all error of
line 153 (an exception escaped, e.g. min over an all-missing date
column at line 32), or a completed run carrying the filtered table, the
optional bar-chart series and the scatter/correlation outcome. -/
inductive EvalOutcome where
  | missingDataColumn : EvalOutcome
  | loadError : EvalOutcome
  | ok : List Row → Option (List (Int × ℚ)) → CorrResult → EvalOutcome

/-- Dates of the table that parsed successfully (non-NaT entries of the
converted Data column of line 29). -/
def parsedDates (t : Table) : List Int :=
  t.rows.filterMap Row.data

/-- Numeric parameter columns of lines 94 and 117: numeric columns
minus Ano and the coordinate columns. -/
def numericParams (t : Table) : List String :=
  t.numericCols.filter fun c => decide (c ∉ ["Ano", "x", "y"])

/-- Pairs fed to the Aggregator: rows of the filtered table whose Ano
key and chosen parameter value are both present (pandas groupby drops
missing keys and mean skips missing values). -/
def barPairs (filtered : List Row) (param : String) : List (Int × ℚ) :=
  filtered.filterMap fun r =>
    match r.ano, r.vals param with
    | some a, some v => some (a, v)
    | _, _ => none

/-- Scatter/correlation block of lines 117-151: the
two-numeric-columns guard of line 119, then the Correlation Stage on
the X and Y cells of the filtered rows. -/
def scatterStage (nps : List String) (rows : List Row) (xAxis yAxis : String) :
    CorrResult :=
  if nps.length < 2 then CorrResult.insufficientNumericColumns
  else correlationStage (rows.map fun r => (r.vals xAxis, r.vals yAxis)) xAxis yAxis

/-- One full evaluation of the script body for an uploaded table and
the widget selections: the Data-column check of line 25, the min/max
date computation of lines 32-33 (which raises, caught by the
catch-all, when no date parsed), then the Filter Stage, the Aggregator
(only when an Ano column exists, line 91) and the scatter/correlation
block. -/
def evaluate (t : Table) (s e : Int) (sel : List String) (param xAxis yAxis : String) :
    EvalOutcome :=
  if "Data" ∉ t.cols then EvalOutcome.missingDataColumn
  else if parsedDates t = [] then EvalOutcome.loadError
  else
    let filtered := filterStage t.rows s e sel
    EvalOutcome.ok filtered
      (if "Ano" ∈ t.cols then some (df_barras (barPairs filtered param)) else none)
      (scatterStage (numericParams t) filtered xAxis yAxis)

/-- Claim C6: when the parsed table has no column named exactly Data
(so a lowercase data column does not count), the evaluation reports the
distinct missing-column message — not the generic catch-all — and no
filter, aggregation or correlation output is produced. -/
theorem C6_missing_data_column (t : Table) (s e : Int) (sel : List String)
    (param xAxis yAxis : String) (h : "Data" ∉ t.cols) :
    evaluate t s e sel param xAxis yAxis = EvalOutcome.missingDataColumn
      ∧ evaluate t s e sel param xAxis yAxis ≠ EvalOutcome.loadError
      ∧ ∀ f b c, evaluate t s e sel param xAxis yAxis ≠ EvalOutcome.ok f b c := by
  rw [evaluate, if_pos h]
  exact ⟨rfl, fun hc => EvalOutcome.noConfusion hc,
    fun f b c hc => EvalOutcome.noConfusion hc⟩

/-- Witness for C6: a table whose date column is misnamed lowercase
data (Scenario 2). -/
theorem C6_missing_data_column_witness :
    "Data" ∉ (Table.mk ["data", "Estação"] [] [rowA]).cols
      ∧ (evaluate (Table.mk ["data", "Estação"] [] [rowA]) 0 10 ["A"] "P" "P" "Q"
            = EvalOutcome.missingDataColumn
        ∧ evaluate (Table.mk ["data", "Estação"] [] [rowA]) 0 10 ["A"] "P" "P" "Q"
            ≠ EvalOutcome.loadError
        ∧ ∀ f b c, evaluate (Table.mk ["data", "Estação"] [] [rowA]) 0 10 ["A"] "P" "P" "Q"
            ≠ EvalOutcome.ok f b c) :=
  ⟨by decide,
    C6_missing_data_column (Table.mk ["data", "Estação"] [] [rowA]) 0 10 ["A"] "P" "P" "Q"
      (by decide)⟩

/-- Claim C10: a table that does have a Data column but in which no
value parses as a date (including the zero-row table) aborts through
the generic catch-all load error — the min/max of the date column
raises — so no filter, aggregation or correlation output is produced
and the distinct missing-column message is not used. -/
theorem C10_unparseable_dates_load_error (t : Table) (s e : Int) (sel : List String)
    (param xAxis yAxis : String) (hcol : "Data" ∈ t.cols) (hdates : parsedDates t = []) :
    evaluate t s e sel param xAxis yAxis = EvalOutcome.loadError
      ∧ evaluate t s e sel param xAxis yAxis ≠ EvalOutcome.missingDataColumn
      ∧ ∀ f b c, evaluate t s e sel param xAxis yAxis ≠ EvalOutcome.ok f b c := by
  have h : ¬ "Data" ∉ t.cols := fun hc => hc hcol
  rw [evaluate, if_neg h, if_pos hdates]
  exact ⟨rfl, fun hc => EvalOutcome.noConfusion hc,
    fun f b c hc => EvalOutcome.noConfusion hc⟩

/-- Witness for C10: a table with a Data column whose only row failed
to parse as a date. -/
theorem C10_unparseable_dates_load_error_witness :
    "Data" ∈ (Table.mk ["Data", "Estação"] [] [Row.mk none "A" none fun _ => none]).cols
      ∧ parsedDates (Table.mk ["Data", "Estação"] [] [Row.mk none "A" none fun _ => none]) = []
      ∧ evaluate (Table.mk ["Data", "Estação"] [] [Row.mk none "A" none fun _ => none])
          0 10 ["A"] "P" "P" "Q" = EvalOutcome.loadError :=
  ⟨by decide, rfl,
    (C10_unparseable_dates_load_error
      (Table.mk ["Data", "Estação"] [] [Row.mk none "A" none fun _ => none])
      0 10 ["A"] "P" "P" "Q" (by decide) rfl).1⟩

/-- Claim C9 (implicit): when the filtered table has no Ano column the
Aggregator is skipped — no bar series is produced — while the
scatter/correlation block still runs unchanged on the same filtered
table. -/
theorem C9_no_ano_skips_aggregator (t : Table) (s e : Int) (sel : List String)
    (param xAxis yAxis : String) (hano : "Ano" ∉ t.cols) (hcol : "Data" ∈ t.cols)
    (hdates : parsedDates t ≠ []) :
    evaluate t s e sel param xAxis yAxis
      = EvalOutcome.ok (filterStage t.rows s e sel) none
          (scatterStage (numericParams t) (filterStage t.rows s e sel) xAxis yAxis) := by
  have h : ¬ "Data" ∉ t.cols := fun hc => hc hcol
  rw [evaluate, if_neg h, if_neg hdates]
  simp only [if_neg hano]

/-- Witness for C9 at a concrete one-row table without an Ano column. -/
theorem C9_no_ano_skips_aggregator_witness :
    "Ano" ∉ (Table.mk ["Data", "Estação"] [] [rowA]).cols
      ∧ "Data" ∈ (Table.mk ["Data", "Estação"] [] [rowA]).cols
      ∧ parsedDates (Table.mk ["Data", "Estação"] [] [rowA]) ≠ []
      ∧ evaluate (Table.mk ["Data", "Estação"] [] [rowA]) 0 10 ["A"] "P" "P" "Q"
          = EvalOutcome.ok (filterStage [rowA] 0 10 ["A"]) none
              (scatterStage (numericParams (Table.mk ["Data", "Estação"] [] [rowA]))
                (filterStage [rowA] 0 10 ["A"]) "P" "Q") :=
  ⟨by decide, by decide, by simp [parsedDates, rowA],
    C9_no_ano_skips_aggregator (Table.mk ["Data", "Estação"] [] [rowA])
      0 10 ["A"] "P" "P" "Q" (by decide) (by decide) (by simp [parsedDates, rowA])⟩

/-- Average rank (the scipy tie policy: ties receive the mean of the
positions they occupy) of value v within list l, computed from the
counts of strictly smaller and of not-larger elements. -/
def rankIn (l : List ℚ) (v : ℚ) : ℚ :=
  (((l.countP fun x => decide (x < v)) : ℚ)
    + ((l.countP fun x => decide (x ≤ v)) : ℚ) + 1) / 2

/-- Ranks of the elements of a list, in place. -/
def ranks (l : List ℚ) : List ℚ := l.map (rankIn l)

/-- Arithmetic mean of a list of rationals. -/
def meanQ (l : List ℚ) : ℚ := l.sum / (l.length : ℚ)

/-- Ranks of a list, centered by their mean. -/
def centeredRanks (l : List ℚ) : List ℚ :=
  (ranks l).map fun r => r - meanQ (ranks l)

/-- Centered rank pairs of a paired sample: the X column and the Y
column are ranked separately and centered, then re-paired. -/
def rankPairs (ps : List (ℚ × ℚ)) : List (ℚ × ℚ) :=
  (centeredRanks (ps.map Prod.fst)).zip (centeredRanks (ps.map Prod.snd))

/-- Numerator of the Spearman statistic: the inner product of the
centered rank columns. -/
def sNum (ps : List (ℚ × ℚ)) : ℚ := ((rankPairs ps).map fun p => p.1 * p.2).sum

/-- Squared norm of the centered X ranks. -/
def sDx (ps : List (ℚ × ℚ)) : ℚ := ((rankPairs ps).map fun p => p.1 ^ 2).sum

/-- Squared norm of the centered Y ranks. -/
def sDy (ps : List (ℚ × ℚ)) : ℚ := ((rankPairs ps).map fun p => p.2 ^ 2).sum

/-- Spearman rank correlation coefficient of line 147 (scipy
spearmanr): the Pearson coefficient of the two rank columns.  When
either rank column has zero variance (a constant column), scipy
divides zero by zero and returns NaN, which line 149 displays as nan;
that error path is modelled as none. -/
noncomputable def spearman_corr (ps : List (ℚ × ℚ)) : Option ℝ :=
  if sDx ps = 0 ∨ sDy ps = 0 then none
  else some ((sNum ps : ℝ) / Real.sqrt ((sDx ps : ℝ) * (sDy ps : ℝ)))

lemma centeredRanks_eq_map (f : (ℚ × ℚ) → ℚ) (ps : List (ℚ × ℚ)) :
    centeredRanks (ps.map f)
      = ps.map fun p => rankIn (ps.map f) (f p) - meanQ (ranks (ps.map f)) := by
  simp [centeredRanks, ranks, List.map_map, Function.comp_def]

lemma rankPairs_eq_map (ps : List (ℚ × ℚ)) :
    rankPairs ps
      = ps.map fun p =>
          (rankIn (ps.map Prod.fst) p.1 - meanQ (ranks (ps.map Prod.fst)),
           rankIn (ps.map Prod.snd) p.2 - meanQ (ranks (ps.map Prod.snd))) := by
  rw [rankPairs, centeredRanks_eq_map, centeredRanks_eq_map, List.zip_map']

lemma countP_lt_map (f : ℚ → ℚ) (hf : StrictMono f) (l : List ℚ) (v : ℚ) :
    ((l.map f).countP fun x => decide (x < f v)) = l.countP fun x => decide (x < v) := by
  rw [List.countP_map]
  congr 1
  funext x
  simp only [Function.comp_apply]
  exact decide_eq_decide.mpr hf.lt_iff_lt

lemma countP_le_map (f : ℚ → ℚ) (hf : StrictMono f) (l : List ℚ) (v : ℚ) :
    ((l.map f).countP fun x => decide (x ≤ f v)) = l.countP fun x => decide (x ≤ v) := by
  rw [List.countP_map]
  congr 1
  funext x
  simp only [Function.comp_apply]
  exact decide_eq_decide.mpr hf.le_iff_le

lemma rankIn_map (f : ℚ → ℚ) (hf : StrictMono f) (l : List ℚ) (v : ℚ) :
    rankIn (l.map f) (f v) = rankIn l v := by
  unfold rankIn
  rw [countP_lt_map f hf, countP_le_map f hf]

lemma ranks_map_strictMono (f : ℚ → ℚ) (hf : StrictMono f) (l : List ℚ) :
    ranks (l.map f) = ranks l := by
  unfold ranks
  rw [List.map_map]
  refine List.map_congr_left fun a _ => ?_
  simp only [Function.comp_apply]
  exact rankIn_map f hf l a

lemma centeredRanks_map_strictMono (f : ℚ → ℚ) (hf : StrictMono f) (l : List ℚ) :
    centeredRanks (l.map f) = centeredRanks l := by
  unfold centeredRanks
  rw [ranks_map_strictMono f hf]

lemma rankPairs_map_fst (f : ℚ → ℚ) (hf : StrictMono f) (ps : List (ℚ × ℚ)) :
    rankPairs (ps.map fun p => (f p.1, p.2)) = rankPairs ps := by
  have hx : (ps.map fun p => (f p.1, p.2)).map Prod.fst = (ps.map Prod.fst).map f := by
    simp [List.map_map, Function.comp_def]
  have hy : (ps.map fun p => (f p.1, p.2)).map Prod.snd = ps.map Prod.snd := by
    simp [List.map_map, Function.comp_def]
  rw [rankPairs, hx, hy, centeredRanks_map_strictMono f hf, rankPairs]

lemma rankPairs_swap (ps : List (ℚ × ℚ)) :
    rankPairs (ps.map Prod.swap) = (rankPairs ps).map Prod.swap := by
  have hx : (ps.map Prod.swap).map Prod.fst = ps.map Prod.snd := by
    simp [List.map_map, Function.comp_def]
  have hy : (ps.map Prod.swap).map Prod.snd = ps.map Prod.fst := by
    simp [List.map_map, Function.comp_def]
  rw [rankPairs, hx, hy, rankPairs, List.zip_swap]

lemma rankPairs_perm (ps qs : List (ℚ × ℚ)) (h : qs.Perm ps) :
    (rankPairs qs).Perm (rankPairs ps) := by
  have hx : (qs.map Prod.fst).Perm (ps.map Prod.fst) := h.map Prod.fst
  have hy : (qs.map Prod.snd).Perm (ps.map Prod.snd) := h.map Prod.snd
  have hrx : rankIn (qs.map Prod.fst) = rankIn (ps.map Prod.fst) := by
    funext v
    unfold rankIn
    rw [hx.countP_eq, hx.countP_eq]
  have hry : rankIn (qs.map Prod.snd) = rankIn (ps.map Prod.snd) := by
    funext v
    unfold rankIn
    rw [hy.countP_eq, hy.countP_eq]
  have hpx : (ranks (qs.map Prod.fst)).Perm (ranks (ps.map Prod.fst)) := by
    unfold ranks
    rw [hrx]
    exact hx.map _
  have hpy : (ranks (qs.map Prod.snd)).Perm (ranks (ps.map Prod.snd)) := by
    unfold ranks
    rw [hry]
    exact hy.map _
  have hmx : meanQ (ranks (qs.map Prod.fst)) = meanQ (ranks (ps.map Prod.fst)) := by
    unfold meanQ
    rw [hpx.sum_eq, hpx.length_eq]
  have hmy : meanQ (ranks (qs.map Prod.snd)) = meanQ (ranks (ps.map Prod.snd)) := by
    unfold meanQ
    rw [hpy.sum_eq, hpy.length_eq]
  rw [rankPairs_eq_map, rankPairs_eq_map, hrx, hry, hmx, hmy]
  exact h.map _

lemma sum_sq_fst_nonneg (l : List (ℚ × ℚ)) : 0 ≤ (l.map fun p => p.1 ^ 2).sum := by
  refine List.sum_nonneg fun x hx => ?_
  obtain ⟨p, _, rfl⟩ := List.mem_map.mp hx
  positivity

lemma sum_sq_snd_nonneg (l : List (ℚ × ℚ)) : 0 ≤ (l.map fun p => p.2 ^ 2).sum := by
  refine List.sum_nonneg fun x hx => ?_
  obtain ⟨p, _, rfl⟩ := List.mem_map.mp hx
  positivity

lemma list_cauchy (l : List (ℚ × ℚ)) :
    ((l.map fun p => p.1 * p.2).sum) ^ 2
      ≤ ((l.map fun p => p.1 ^ 2).sum) * ((l.map fun p => p.2 ^ 2).sum) := by
  induction l with
  | nil => simp
  | cons hd tl ih =>
    have hA : 0 ≤ (tl.map fun p => p.1 ^ 2).sum := sum_sq_fst_nonneg tl
    have hB : 0 ≤ (tl.map fun p => p.2 ^ 2).sum := sum_sq_snd_nonneg tl
    simp only [List.map_cons, List.sum_cons]
    set a := hd.1
    set b := hd.2
    set S := (tl.map fun p => p.1 * p.2).sum with hS
    set A := (tl.map fun p => p.1 ^ 2).sum with hAd
    set B := (tl.map fun p => p.2 ^ 2).sum with hBd
    rcases eq_or_lt_of_le hB with hB0 | hBpos
    · have hS0 : S = 0 := by nlinarith [ih, sq_nonneg S]
      rw [hS0, ← hB0]
      nlinarith [mul_nonneg hA (sq_nonneg b)]
    · have key : B * ((a ^ 2 + A) * (b ^ 2 + B) - (a * b + S) ^ 2)
          = (a * B - b * S) ^ 2 + (b ^ 2 + B) * (A * B - S ^ 2) := by ring
      have h1 : 0 ≤ (a * B - b * S) ^ 2 := sq_nonneg _
      have h2 : 0 ≤ (b ^ 2 + B) * (A * B - S ^ 2) :=
        mul_nonneg (by positivity) (by nlinarith [ih])
      nlinarith [key, h1, h2, hBpos]

lemma spearman_cauchy (ps : List (ℚ × ℚ)) : (sNum ps) ^ 2 ≤ sDx ps * sDy ps := by
  unfold sNum sDx sDy
  exact list_cauchy (rankPairs ps)

lemma spearman_ratio_abs_le_one (ps : List (ℚ × ℚ)) :
    |(sNum ps : ℝ) / Real.sqrt ((sDx ps : ℝ) * (sDy ps : ℝ))| ≤ 1 := by
  have hcs : (sNum ps) ^ 2 ≤ sDx ps * sDy ps := spearman_cauchy ps
  have hA : (0 : ℚ) ≤ sDx ps := sum_sq_fst_nonneg (rankPairs ps)
  have hB : (0 : ℚ) ≤ sDy ps := sum_sq_snd_nonneg (rankPairs ps)
  have hcsR : ((sNum ps : ℝ)) ^ 2 ≤ (sDx ps : ℝ) * (sDy ps : ℝ) := by
    exact_mod_cast hcs
  have hprod : (0 : ℝ) ≤ (sDx ps : ℝ) * (sDy ps : ℝ) := by
    exact_mod_cast mul_nonneg hA hB
  rcases eq_or_lt_of_le hprod with h0 | hpos
  · have hn : (sNum ps : ℝ) ^ 2 ≤ 0 := by rw [← h0] at hcsR; exact hcsR
    have hz : (sNum ps : ℝ) = 0 := by nlinarith [sq_nonneg ((sNum ps : ℝ))]
    rw [hz]
    simp
  · have hsq : 0 < Real.sqrt ((sDx ps : ℝ) * (sDy ps : ℝ)) := Real.sqrt_pos.mpr hpos
    rw [abs_div, abs_of_nonneg (Real.sqrt_nonneg _), div_le_one hsq]
    have habs : |(sNum ps : ℝ)| = Real.sqrt ((sNum ps : ℝ) ^ 2) :=
      (Real.sqrt_sq_eq_abs _).symm
    rw [habs]
    exact Real.sqrt_le_sqrt hcsR

lemma spearman_swap (ps : List (ℚ × ℚ)) :
    spearman_corr (ps.map Prod.swap) = spearman_corr ps := by
  have hnum : sNum (ps.map Prod.swap) = sNum ps := by
    unfold sNum
    rw [rankPairs_swap, List.map_map]
    refine congrArg List.sum (List.map_congr_left fun p _ => ?_)
    simp [mul_comm]
  have hdx : sDx (ps.map Prod.swap) = sDy ps := by
    unfold sDx sDy
    rw [rankPairs_swap, List.map_map]
    rfl
  have hdy : sDy (ps.map Prod.swap) = sDx ps := by
    unfold sDx sDy
    rw [rankPairs_swap, List.map_map]
    rfl
  unfold spearman_corr
  rw [hnum, hdx, hdy]
  by_cases h : sDx ps = 0 ∨ sDy ps = 0
  · rw [if_pos h.symm, if_pos h]
  · rw [if_neg (fun hc => h hc.symm), if_neg h,
      mul_comm ((sDy ps : ℝ)) ((sDx ps : ℝ))]

lemma spearman_map_fst (f : ℚ → ℚ) (hf : StrictMono f) (ps : List (ℚ × ℚ)) :
    spearman_corr (ps.map fun p => (f p.1, p.2)) = spearman_corr ps := by
  unfold spearman_corr sNum sDx sDy
  rw [rankPairs_map_fst f hf]

lemma spearman_map_snd (f : ℚ → ℚ) (hf : StrictMono f) (ps : List (ℚ × ℚ)) :
    spearman_corr (ps.map fun p => (p.1, f p.2)) = spearman_corr ps := by
  have hrw : ps.map (fun p => (p.1, f p.2))
      = ((ps.map Prod.swap).map fun p => (f p.1, p.2)).map Prod.swap := by
    rw [List.map_map, List.map_map]
    rfl
  rw [hrw, spearman_swap, spearman_map_fst f hf, spearman_swap]

lemma spearman_perm (ps qs : List (ℚ × ℚ)) (h : qs.Perm ps) :
    spearman_corr qs = spearman_corr ps := by
  have hp := rankPairs_perm ps qs h
  have hnum : sNum qs = sNum ps := by
    unfold sNum
    exact (hp.map fun p => p.1 * p.2).sum_eq
  have hdx : sDx qs = sDx ps := by
    unfold sDx
    exact (hp.map fun p => p.1 ^ 2).sum_eq
  have hdy : sDy qs = sDy ps := by
    unfold sDy
    exact (hp.map fun p => p.2 ^ 2).sum_eq
  unfold spearman_corr
  rw [hnum, hdx, hdy]

lemma spearman_monotone_concrete :
    spearman_corr [(1, 10), (2, 20), (3, 30), (4, 40)] = some 1 := by
  have hnum : sNum [(1, 10), (2, 20), (3, 30), (4, 40)] = 5 := by
    norm_num [sNum, rankPairs, centeredRanks, ranks, rankIn, meanQ,
      List.countP_cons, List.countP_nil]
  have hdx : sDx [(1, 10), (2, 20), (3, 30), (4, 40)] = 5 := by
    norm_num [sDx, rankPairs, centeredRanks, ranks, rankIn, meanQ,
      List.countP_cons, List.countP_nil]
  have hdy : sDy [(1, 10), (2, 20), (3, 30), (4, 40)] = 5 := by
    norm_num [sDy, rankPairs, centeredRanks, ranks, rankIn, meanQ,
      List.countP_cons, List.countP_nil]
  unfold spearman_corr
  rw [hnum, hdx, hdy, if_neg (by norm_num)]
  have h5 : ((5 : ℚ) : ℝ) = (5 : ℝ) := by norm_cast
  rw [h5, Real.sqrt_mul_self (by norm_num : (0 : ℝ) ≤ 5)]
  norm_num

lemma spearman_corr_two : spearman_corr [(1, 10), (2, 20)] = some 1 := by
  have hnum : sNum [(1, 10), (2, 20)] = 1 / 2 := by
    norm_num [sNum, rankPairs, centeredRanks, ranks, rankIn, meanQ,
      List.countP_cons, List.countP_nil]
  have hdx : sDx [(1, 10), (2, 20)] = 1 / 2 := by
    norm_num [sDx, rankPairs, centeredRanks, ranks, rankIn, meanQ,
      List.countP_cons, List.countP_nil]
  have hdy : sDy [(1, 10), (2, 20)] = 1 / 2 := by
    norm_num [sDy, rankPairs, centeredRanks, ranks, rankIn, meanQ,
      List.countP_cons, List.countP_nil]
  unfold spearman_corr
  rw [hnum, hdx, hdy, if_neg (by norm_num)]
  have hc : ((1 / 2 : ℚ) : ℝ) = (1 / 2 : ℝ) := by push_cast; norm_num
  rw [hc, Real.sqrt_mul_self (by norm_num : (0 : ℝ) ≤ 1 / 2)]
  norm_num

/-- Counterexample to claim C3: with X = 1,1 and Y = 10,20 the stage
passes both guards (two paired rows, distinct axes) and produces a
coefficient, but the X rank column is constant, so scipy divides zero
by zero and returns NaN — the program displays nan, which is not a
real number in [-1, 1]. -/
theorem C3_spearman_counterexample :
    correlationStage [(some 1, some 10), (some 1, some 20)] "A" "B"
        = CorrResult.coefficient [(1, 10), (1, 20)]
      ∧ spearman_corr [(1, 10), (1, 20)] = none := by
  refine ⟨by decide, ?_⟩
  have hdx : sDx [(1, 10), (1, 20)] = 0 := by
    norm_num [sDx, rankPairs, centeredRanks, ranks, rankIn, meanQ,
      List.countP_cons, List.countP_nil]
  unfold spearman_corr
  rw [hdx]
  exact if_pos (Or.inl rfl)

/-- Claim C3 amended: whenever the Correlation Stage produces a
coefficient and the statistic is a real number (both rank columns
non-constant; on a constant column scipy returns NaN, modelled as
none), that number lies in [-1, 1]; the statistic — NaN case included
— is symmetric under swapping the X and Y columns, invariant under any
strictly increasing transform of either column and under any
permutation of the rows; and the perfectly monotonic sample
X = 1,2,3,4 against Y = 10,20,30,40 has coefficient 1. -/
theorem C3_spearman_properties_amended :
    (∀ prs xAxis yAxis ps r,
        correlationStage prs xAxis yAxis = CorrResult.coefficient ps →
          spearman_corr ps = some r → -1 ≤ r ∧ r ≤ 1)
      ∧ (∀ ps : List (ℚ × ℚ), spearman_corr (ps.map Prod.swap) = spearman_corr ps)
      ∧ (∀ (ps : List (ℚ × ℚ)) (f : ℚ → ℚ), StrictMono f →
          spearman_corr (ps.map fun p => (f p.1, p.2)) = spearman_corr ps)
      ∧ (∀ (ps : List (ℚ × ℚ)) (f : ℚ → ℚ), StrictMono f →
          spearman_corr (ps.map fun p => (p.1, f p.2)) = spearman_corr ps)
      ∧ (∀ ps qs : List (ℚ × ℚ), qs.Perm ps → spearman_corr qs = spearman_corr ps)
      ∧ spearman_corr [(1, 10), (2, 20), (3, 30), (4, 40)] = some 1 := by
  refine ⟨?_, spearman_swap, fun ps f hf => spearman_map_fst f hf ps,
    fun ps f hf => spearman_map_snd f hf ps, spearman_perm, spearman_monotone_concrete⟩
  intro prs xAxis yAxis ps r _ hr
  unfold spearman_corr at hr
  by_cases h : sDx ps = 0 ∨ sDy ps = 0
  · rw [if_pos h] at hr
    exact absurd hr (by simp)
  · rw [if_neg h] at hr
    have hval : (sNum ps : ℝ) / Real.sqrt ((sDx ps : ℝ) * (sDy ps : ℝ)) = r :=
      Option.some.inj hr
    rw [← hval]
    exact abs_le.mp (spearman_ratio_abs_le_one ps)

/-- Witness for C3's amended theorem: applied at a concrete stage run
(two paired rows, distinct values, distinct axes, coefficient 1), with
the identity as increasing transform and a transposition of two
rows. -/
theorem C3_spearman_properties_amended_witness :
    (correlationStage [(some 1, some 10), (some 2, some 20)] "A" "B"
        = CorrResult.coefficient [(1, 10), (2, 20)]
      ∧ spearman_corr [(1, 10), (2, 20)] = some 1
      ∧ StrictMono (id : ℚ → ℚ)
      ∧ ([(2, 20), (1, 10)] : List (ℚ × ℚ)).Perm [(1, 10), (2, 20)])
      ∧ ((-1 ≤ (1 : ℝ) ∧ (1 : ℝ) ≤ 1)
        ∧ spearman_corr ([(1, 10), (2, 20)].map fun p => (id p.1, p.2))
            = spearman_corr [(1, 10), (2, 20)]
        ∧ spearman_corr ([(1, 10), (2, 20)].map fun p => (p.1, id p.2))
            = spearman_corr [(1, 10), (2, 20)]
        ∧ spearman_corr [(2, 20), (1, 10)] = spearman_corr [(1, 10), (2, 20)]) :=
  ⟨⟨by decide, spearman_corr_two, strictMono_id, List.Perm.swap _ _ _⟩,
    C3_spearman_properties_amended.1 [(some 1, some 10), (some 2, some 20)] "A" "B"
      [(1, 10), (2, 20)] 1 (by decide) spearman_corr_two,
    C3_spearman_properties_amended.2.2.1 [(1, 10), (2, 20)] id strictMono_id,
    C3_spearman_properties_amended.2.2.2.1 [(1, 10), (2, 20)] id strictMono_id,
    C3_spearman_properties_amended.2.2.2.2.1 [(1, 10), (2, 20)] [(2, 20), (1, 10)]
      (List.Perm.swap _ _ _)⟩

end DashAgua
